import Mathlib

/-!
# Verification of the project-hub commit/staging pipeline

A shallow embedding of the commit-construction and staging pipeline of the
project-hub MCP server, together with proofs about the claims of its
specification.

Embedded source units:
* `CommitService.createCommit` / `CommitService.revertCommit`
  (src/services/github/commit-service.ts)
* `BranchService.deleteBranch` / `BranchService.mergeBranches`
  (src/services/github/branch-service.ts)
* `BaseGitHubService.handleApiError` and the identifier validators
  (src/services/github/base-service.ts)
* `ProjectManager.recordChange` / `getPendingChanges` / `markChangesAsCommitted`
  (src/services/project-manager.ts)
* the `clear_committed_changes` tool handler (src/index.ts)

The remote GitHub git-data API (octokit) is external to the repository; it is
modelled from the spec's Remote API Gateway contract (section 6) as a record of
pure state-passing functions over a content-addressed object store.  Shas are
modelled as the canonical serialisation of the object they name, which gives
the content-addressing the spec attributes to the Gateway ("identified by
content-addressed sha assigned by the Gateway").
-/

namespace ProjectHub

/-- Substring test used to model JavaScript `String.prototype.includes`. -/
def strContains (s pat : String) : Bool :=
  s.toList.tails.any (fun t => pat.toList.isPrefixOf t)

/-! ## Remote object store (Modelled from the spec: section 6, Remote API Gateway)

The Gateway (octokit / GitHub git-data API) is not part of this repository's
sources.  It is modelled from the spec's contract:
`createBlob`, `getTree`, `createTree`, `createCommit`, `getRef`, `updateRef`,
`getCommit`, plus `deleteRef` used by branch deletion.  Trees are flat
path-to-blob maps, per the spec's data model ("a full tree fully determines
working-state for a commit").  Blobs are not stored: `createBlob` is a pure
content-addressed function, since no modelled operation ever reads a blob
back. -/

/-- A commit object held by the remote: message, tree sha, parent commit shas. -/
structure CommitObj where
  message : String
  tree : String
  parents : List String
  deriving DecidableEq, Repr

/-- The remote repository state: tree objects, commit objects and branch refs.
Trees map a tree sha to flat `(path, blob sha)` entries; refs map a ref name
(as passed by the services, e.g. `heads/main`) to a commit sha.  Updated
associations are prepended, and `List.lookup` returns the most recent one. -/
structure RemoteState where
  trees : List (String × List (String × String))
  commits : List (String × CommitObj)
  refs : List (String × String)
  deriving DecidableEq, Repr

/-- A failed remote call: HTTP status plus message, as surfaced by octokit. -/
structure ApiFailure where
  status : Nat
  message : String
  deriving DecidableEq, Repr

/-- Content-addressed sha of a blob. -/
def blobSha (content : String) : String := "blob:" ++ content

/-- Content-addressed sha of a tree with the given entries. -/
def treeShaOf (entries : List (String × String)) : String :=
  "tree:" ++ String.intercalate ";" (entries.map (fun e => e.1 ++ "=" ++ e.2))

/-- Content-addressed sha of a commit object. -/
def commitShaOf (message tree : String) (parents : List String) : String :=
  "commit:" ++ message ++ "|" ++ tree ++ "|" ++ String.intercalate "," parents

/-- A tree entry submitted to `createTree`.  `sha = none` models the `sha: null`
delete marker; `mode` and `ty` carry the constant `'100644'` / `'blob'` the
source attaches to every entry. -/
structure TreeOp where
  path : String
  mode : String
  ty : String
  sha : Option String
  deriving DecidableEq, Repr

/-- Overlay `createTree` entries on a base tree: a `none` sha removes the path,
a `some` sha replaces (or adds) the path's entry. -/
def applyTreeOps (base : List (String × String)) (ops : List TreeOp) :
    List (String × String) :=
  ops.foldl
    (fun acc op =>
      match op.sha with
      | none => acc.filter (fun e => !(e.1 == op.path))
      | some s => acc.filter (fun e => !(e.1 == op.path)) ++ [(op.path, s)])
    base

/-- Commit metadata returned by the Gateway's `getCommit`
(`{treeSha, parents, filesChanged[]}` in the spec).  The changed-files diff
projection is not modelled (`files` is empty): it is display-only output and no
claim depends on it. -/
structure CommitData where
  sha : String
  message : String
  treeSha : String
  parents : List String
  files : List String
  deriving DecidableEq, Repr

/-- Is `anc` an ancestor of (or equal to) `target` in the commit graph?
Fuel-bounded walk over the stored parent links. -/
def isAncestor (commits : List (String × CommitObj)) (anc : String) :
    String → Nat → Bool
  | _, 0 => false
  | target, fuel + 1 =>
    anc == target ||
      match List.lookup target commits with
      | some c => c.parents.any (fun p => isAncestor commits anc p fuel)
      | none => false

/-- Fast-forward check for `updateRef` without `force` (the only mode the
sources use): the new sha must have the ref's current target in its ancestry. -/
def isFastForward (st : RemoteState) (cur next : String) : Bool :=
  isAncestor st.commits cur next (st.commits.length + 1)

/-- The Remote API Gateway as a record of operations, mirroring the injected
`octokit` client.  Modelled from the spec: section 6 contract. -/
structure Gateway where
  getRef : RemoteState → String → Except ApiFailure String
  getTree : RemoteState → String → Except ApiFailure (String × List (String × String))
  createTree : RemoteState → String → List TreeOp → Except ApiFailure (String × RemoteState)
  createCommit : RemoteState → String → String → List String → Except ApiFailure (String × RemoteState)
  updateRef : RemoteState → String → String → Except ApiFailure RemoteState
  deleteRef : RemoteState → String → Except ApiFailure RemoteState
  getCommit : RemoteState → String → Except ApiFailure CommitData

/-- Gateway `getRef`: resolve a ref name to its commit sha; 404 when absent. -/
def gwGetRef (st : RemoteState) (refStr : String) : Except ApiFailure String :=
  match List.lookup refStr st.refs with
  | some sha => .ok sha
  | none => .error { status := 404, message := "Not Found" }

/-- Gateway `getTree`: the GitHub trees endpoint resolves commit-ish input, so a commit
sha yields that commit's tree.  Returns the tree's sha with its entries. -/
def gwGetTree (st : RemoteState) (sha : String) :
    Except ApiFailure (String × List (String × String)) :=
  match List.lookup sha st.commits with
  | some c =>
    match List.lookup c.tree st.trees with
    | some entries => .ok (c.tree, entries)
    | none => .error { status := 404, message := "Not Found" }
  | none =>
    match List.lookup sha st.trees with
    | some entries => .ok (sha, entries)
    | none => .error { status := 404, message := "Not Found" }

/-- Gateway `createTree(baseSha, entries)`: overlay the entries on the base tree and
store the result under its content-addressed sha. -/
def gwCreateTree (st : RemoteState) (base : String) (ops : List TreeOp) :
    Except ApiFailure (String × RemoteState) :=
  match List.lookup base st.trees with
  | none => .error { status := 404, message := "Not Found" }
  | some entries =>
    let newEntries := applyTreeOps entries ops
    let sha := treeShaOf newEntries
    .ok (sha, { st with trees := (sha, newEntries) :: st.trees })

/-- Gateway `createCommit(message, treeSha, parents)`: store a commit object under its
content-addressed sha.  Per the spec's contract the Gateway records the given
`treeSha` field as supplied by the caller. -/
def gwCreateCommit (st : RemoteState) (message tree : String)
    (parents : List String) : Except ApiFailure (String × RemoteState) :=
  let sha := commitShaOf message tree parents
  .ok (sha, { st with commits := (sha, ⟨message, tree, parents⟩) :: st.commits })

/-- Gateway `updateRef(name, sha)` without `force`: fast-forward-only; rejects with 422
when the new sha does not descend from the ref's current target. -/
def gwUpdateRef (st : RemoteState) (refStr sha : String) :
    Except ApiFailure RemoteState :=
  match List.lookup refStr st.refs with
  | none => .error { status := 404, message := "Not Found" }
  | some cur =>
    if isFastForward st cur sha then
      .ok { st with refs := (refStr, sha) :: st.refs }
    else
      .error { status := 422, message := "Update is not a fast forward" }

/-- Gateway `deleteRef(name)`: remove an existing ref; 422 when it does not exist. -/
def gwDeleteRef (st : RemoteState) (refStr : String) :
    Except ApiFailure RemoteState :=
  match List.lookup refStr st.refs with
  | none => .error { status := 422, message := "Reference does not exist" }
  | some _ =>
    .ok { st with refs := st.refs.filter (fun e => !(e.1 == refStr)) }

/-- Gateway `getCommit(sha)`: commit metadata; 404 when absent. -/
def gwGetCommit (st : RemoteState) (sha : String) :
    Except ApiFailure CommitData :=
  match List.lookup sha st.commits with
  | some c =>
    .ok { sha := sha, message := c.message, treeSha := c.tree,
          parents := c.parents, files := [] }
  | none => .error { status := 404, message := "Not Found" }

/-- The standard Gateway instance with GitHub's git-data semantics. -/
def github : Gateway where
  getRef := gwGetRef
  getTree := gwGetTree
  createTree := gwCreateTree
  createCommit := gwCreateCommit
  updateRef := gwUpdateRef
  deleteRef := gwDeleteRef
  getCommit := gwGetCommit

/-! ## Error taxonomy (src/types/github/errors.ts via base-service.ts) -/

/-- The typed errors the services raise.  `invalid` carries the code of a
`GitHubError` thrown by a validator (`INVALID_REPOSITORY` / `INVALID_BRANCH`);
`api` is the generic `GitHubError('API_ERROR', status)` wrap; `plain` is a bare
`new Error(message)` thrown outside a try block (e.g. the default-branch guard
in `deleteBranch`); `repositoryNotFound` keeps the context string in place of
the owner/repo pair the source parses out of it. -/
inductive GHError where
  | unauthorized
  | rateLimit
  | repositoryNotFound (context : String)
  | api (context : String) (status : Option Nat)
  | invalid (code : String)
  | branchNotFound (repo branch : String)
  | plain (message : String)
  deriving DecidableEq, Repr

/-- A value thrown inside a service try block: either an already-typed
`GitHubError` (rethrown as-is by `handleApiError`) or a raw JavaScript error
with an optional HTTP status and a message. -/
inductive Thrown where
  | gh (e : GHError)
  | js (status : Option Nat) (message : String)
  deriving DecidableEq, Repr

/-- Lift a Gateway failure to a thrown JavaScript error. -/
def ApiFailure.toThrown (f : ApiFailure) : Thrown := .js (some f.status) f.message

/-- Model of `BaseGitHubService.handleApiError` (base-service.ts lines 21-48):
rethrow typed errors; map 401 to `UnauthorizedError`, rate-limited 403 to
`RateLimitError`, a 404 in a repository context to `RepositoryNotFoundError`,
and everything else to `GitHubError('API_ERROR', status)` tagged with the
operation context. -/
def handleApiError (t : Thrown) (context : String) : GHError :=
  match t with
  | .gh e => e
  | .js status message =>
    if status = some 401 then .unauthorized
    else if status = some 403 && strContains message "rate limit" then .rateLimit
    else if status = some 404 && strContains context "repository" then
      .repositoryNotFound context
    else .api context status

/-! ## Shared service types -/

/-- The service configuration held by `BaseGitHubService`: the account owner
and the default branch (the auth token plays no role in the model). -/
structure GitHubConfig where
  owner : String
  defaultBranch : String
  deriving DecidableEq, Repr

/-- Model of `GitFileChange`: one file operation of a commit request.  `operation` is
`"add"`, `"modify"` or `"delete"`; `sourcePath` is the local file to read for
non-delete operations. -/
structure GitFileChange where
  path : String
  operation : String
  sourcePath : Option String
  deriving DecidableEq, Repr

/-- Commit author identity. -/
structure Author where
  name : String
  email : String
  deriving DecidableEq, Repr

/-- Model of `CommitOptions` for `CommitService.createCommit`. -/
structure CommitOptions where
  message : String
  branch : Option String
  author : Option Author
  deriving DecidableEq, Repr

/-- Model of `CommitResult` returned by commit operations. -/
structure CommitResult where
  sha : String
  url : String
  files : List String
  deriving DecidableEq, Repr

/-- Model of `MergeBranchOptions` (types/github/branch.ts). -/
structure MergeBranchOptions where
  head : String
  base : String
  message : Option String
  deriving DecidableEq, Repr

/-- Model of `MergeResult` (types/github/branch.ts).  The TypeScript `conflicted?:
boolean` field is optional and the success path omits it; an omitted optional
boolean is modelled as `false`, which is indistinguishable from `undefined`
under the truthiness reads the callers perform. -/
structure MergeResult where
  merged : Bool
  sha : String
  message : String
  conflicted : Bool
  url : String
  deriving DecidableEq, Repr

/-- The payload of a successful remote `repos.merge` call: the merge commit
sha and its message. -/
structure MergeData where
  sha : String
  message : String
  deriving DecidableEq, Repr

namespace CommitService

/-- One iteration of the blob-creation loop of `createCommit` (commit-service.ts
lines 358-386): a `delete` yields a removal entry; otherwise a missing
`sourcePath` throws `Source path required ...`, a failed file read throws the
filesystem error, and a successful read creates a content-addressed blob.  The
filesystem is the `fsys` map from source path to content. -/
def buildFileOp (fsys : String → Option String) (change : GitFileChange) :
    Except Thrown TreeOp :=
  if change.operation == "delete" then
    .ok { path := change.path, mode := "100644", ty := "blob", sha := none }
  else
    match change.sourcePath with
    | none =>
      .error (.js none ("Source path required for " ++ change.operation ++ " operation"))
    | some sp =>
      match fsys sp with
      | none => .error (.js none ("ENOENT: no such file or directory " ++ sp))
      | some content =>
        .ok { path := change.path, mode := "100644", ty := "blob",
              sha := some (blobSha content) }

/-- The `Promise.all` over all changes (lines 357-387): the whole batch fails
as soon as any single change fails. -/
def buildFileOps (fsys : String → Option String) :
    List GitFileChange → Except Thrown (List TreeOp)
  | [] => .ok []
  | c :: cs =>
    match buildFileOp fsys c with
    | .error t => .error t
    | .ok op =>
      match buildFileOps fsys cs with
      | .error t => .error t
      | .ok ops => .ok (op :: ops)

/-- Model of `CommitService.createCommit` (commit-service.ts lines 340-431): resolve the
branch head, build blob entries for the changes, fetch the base tree at the
head, overlay the entries into a new tree, create a commit whose sole parent is
the head, and advance the branch ref.  Any throw is wrapped by
`handleApiError` with the `creating commit in <repo>` context, and the state
reached so far is kept (objects created before the failure stay created). -/
def createCommit (gw : Gateway) (cfg : GitHubConfig)
    (fsys : String → Option String) (repo : String)
    (changes : List GitFileChange) (options : CommitOptions)
    (st : RemoteState) : Except GHError CommitResult × RemoteState :=
  let branch := options.branch.getD cfg.defaultBranch
  let ctx := "creating commit in " ++ repo
  match gw.getRef st ("heads/" ++ branch) with
  | .error f => (.error (handleApiError f.toThrown ctx), st)
  | .ok latestCommit =>
    match buildFileOps fsys changes with
    | .error t => (.error (handleApiError t ctx), st)
    | .ok fileOperations =>
      match gw.getTree st latestCommit with
      | .error f => (.error (handleApiError f.toThrown ctx), st)
      | .ok (baseTreeSha, _) =>
        match gw.createTree st baseTreeSha fileOperations with
        | .error f => (.error (handleApiError f.toThrown ctx), st)
        | .ok (newTreeSha, st1) =>
          match gw.createCommit st1 options.message newTreeSha [latestCommit] with
          | .error f => (.error (handleApiError f.toThrown ctx), st1)
          | .ok (commitSha, st2) =>
            match gw.updateRef st2 ("heads/" ++ branch) commitSha with
            | .error f => (.error (handleApiError f.toThrown ctx), st2)
            | .ok st3 =>
              (.ok { sha := commitSha,
                     url := "https://github.com/" ++ cfg.owner ++ "/" ++ repo
                       ++ "/commit/" ++ commitSha,
                     files := changes.map (fun c => c.path) }, st3)

/-- Model of `CommitService.revertCommit` (commit-service.ts lines 483-524): fetch the
target commit, fetch the current branch head, create a commit with
`tree: commitToRevert.parents[0].sha` (the source's own comment says "Use
parent's tree", but the value passed is the first parent's COMMIT sha) and
`parents: [head]`, then advance the branch ref.  An empty `parents` array makes
the subscript `parents[0].sha` throw a TypeError, which the catch block wraps
like any other failure. -/
def revertCommit (gw : Gateway) (cfg : GitHubConfig) (st : RemoteState)
    (repo sha message : String) (branch : Option String) :
    Except GHError CommitResult × RemoteState :=
  let refName := "heads/" ++ branch.getD cfg.defaultBranch
  let ctx := "reverting commit " ++ sha ++ " in " ++ repo
  match gw.getCommit st sha with
  | .error f => (.error (handleApiError f.toThrown ctx), st)
  | .ok commitToRevert =>
    match gw.getRef st refName with
    | .error f => (.error (handleApiError f.toThrown ctx), st)
    | .ok headSha =>
      match commitToRevert.parents with
      | [] =>
        (.error (handleApiError
          (.js none "Cannot read properties of undefined (reading sha)") ctx), st)
      | parent0 :: _ =>
        match gw.createCommit st message parent0 [headSha] with
        | .error f => (.error (handleApiError f.toThrown ctx), st)
        | .ok (newSha, st1) =>
          match gw.updateRef st1 refName newSha with
          | .error f => (.error (handleApiError f.toThrown ctx), st1)
          | .ok st2 =>
            (.ok { sha := newSha,
                   url := "https://github.com/" ++ cfg.owner ++ "/" ++ repo
                     ++ "/commit/" ++ newSha,
                   files := commitToRevert.files }, st2)

end CommitService

namespace BranchService

/-- Model of `BranchService.deleteBranch` (branch-service.ts lines 216-233):
`validateRepository`, `validateBranch` (a falsy string - here the empty string -
is invalid and raises a typed `GitHubError`), then the default-branch guard
`throw new Error('Cannot delete default branch')` BEFORE any remote call;
otherwise delete the ref, wrapping remote failures. -/
def deleteBranch (gw : Gateway) (cfg : GitHubConfig) (st : RemoteState)
    (repo branch : String) : Except GHError Unit × RemoteState :=
  if repo == "" then (.error (.invalid "INVALID_REPOSITORY"), st)
  else if branch == "" then (.error (.invalid "INVALID_BRANCH"), st)
  else if branch == cfg.defaultBranch then
    (.error (.plain "Cannot delete default branch"), st)
  else
    match gw.deleteRef st ("heads/" ++ branch) with
    | .ok st1 => (.ok (), st1)
    | .error f =>
      (.error (handleApiError f.toThrown
        ("deleting branch " ++ branch ++ " in " ++ cfg.owner ++ "/" ++ repo)), st)

/-- Model of `BranchService.mergeBranches` (branch-service.ts lines 255-288): validate
the identifiers, then attempt the server-side merge.  The merge call is a
single external request, so its outcome is a parameter `remote`: a success
carries the merge commit, a failure carries the HTTP status.  A 409 is
returned as `merged := false, conflicted := true` instead of being thrown;
any other failure goes through `handleApiError`. -/
def mergeBranches (cfg : GitHubConfig) (repo : String)
    (options : MergeBranchOptions) (remote : Except ApiFailure MergeData) :
    Except GHError MergeResult :=
  if repo == "" then .error (.invalid "INVALID_REPOSITORY")
  else if options.head == "" then .error (.invalid "INVALID_BRANCH")
  else if options.base == "" then .error (.invalid "INVALID_BRANCH")
  else
    match remote with
    | .ok mergeResult =>
      .ok { merged := true, sha := mergeResult.sha,
            message := mergeResult.message, conflicted := false,
            url := "https://github.com/" ++ cfg.owner ++ "/" ++ repo
              ++ "/commit/" ++ mergeResult.sha }
    | .error f =>
      if f.status == 409 then
        .ok { merged := false, message := "Merge conflict", conflicted := true,
              sha := "",
              url := "https://github.com/" ++ cfg.owner ++ "/" ++ repo
                ++ "/compare/" ++ options.base ++ "..." ++ options.head }
      else
        .error (handleApiError f.toThrown
          ("merging " ++ options.head ++ " into " ++ options.base ++ " in "
            ++ cfg.owner ++ "/" ++ repo))

end BranchService

/-! ## Staging store (src/services/project-manager.ts) -/

/-- A `Change` record of a project.  The TypeScript `committed?: boolean` is
optional and a freshly recorded change carries no `committed` key; every read
in the sources is a truthiness test (`!change.committed`,
`change.committed ? ... : ...`), under which an absent field behaves exactly
like `false`, so the model collapses `undefined` to `false`.  `files` keeps the
optional file list; `ctype` embeds the source's `type` field. -/
structure Change where
  id : String
  timestamp : String
  ctype : String
  description : String
  files : Option (List String)
  committed : Bool
  commitSha : Option String
  deriving DecidableEq, Repr

/-- A project as the staging operations see it.  The metadata fields the
staging pipeline neither reads nor writes (path, type, description, sourceFiles,
settings, repository link, accounts) are omitted. -/
structure Project where
  name : String
  lastCommit : Option String
  changes : List Change
  deriving DecidableEq, Repr

/-- The `ProjectManager` state: projects keyed by name.  Mutated projects are
re-associated by prepending, and `List.lookup` returns the newest binding. -/
structure PMState where
  projects : List (String × Project)
  deriving DecidableEq, Repr

/-- The caller-supplied part of `recordChange`'s input
(`Omit<Change, 'id' | 'timestamp'>` as the tool handlers build it:
type, description and an optional file list). -/
structure ChangeInput where
  ctype : String
  description : String
  files : Option (List String)
  deriving DecidableEq, Repr

namespace ProjectManager

/-- Model of `ProjectManager.recordChange` (project-manager.ts lines 329-344): append a
new change with a fresh id and timestamp (both nondeterministic in the source -
`uuidv4()` and `new Date()` - so they are inputs here) to the named project;
unknown projects raise `Project <name> not found`. -/
def recordChange (st : PMState) (projectName : String) (input : ChangeInput)
    (newId newTimestamp : String) : Except String (Change × PMState) :=
  match List.lookup projectName st.projects with
  | none => .error ("Project " ++ projectName ++ " not found")
  | some project =>
    let newChange : Change :=
      { id := newId, timestamp := newTimestamp, ctype := input.ctype,
        description := input.description, files := input.files,
        committed := false, commitSha := none }
    .ok (newChange,
      { st with projects :=
          (projectName, { project with changes := project.changes ++ [newChange] })
            :: st.projects })

/-- Model of `ProjectManager.getPendingChanges` (project-manager.ts lines 346-353):
the changes whose `committed` flag is falsy, in stored (insertion) order. -/
def getPendingChanges (st : PMState) (projectName : String) :
    Except String (List Change) :=
  match List.lookup projectName st.projects with
  | none => .error ("Project " ++ projectName ++ " not found")
  | some project => .ok (project.changes.filter (fun c => !c.committed))

/-- The per-change update `markChangesAsCommitted` maps over the change list
(project-manager.ts lines 361-363): an already-committed change is kept as-is,
an uncommitted one becomes committed with the given sha. -/
def markChange (commitSha : String) (c : Change) : Change :=
  if c.committed then c else { c with committed := true, commitSha := some commitSha }

/-- Model of `ProjectManager.markChangesAsCommitted` (project-manager.ts lines 355-367),
the spec's `clearCommittedChanges(projectId, commitSha)`: mark every
currently-uncommitted change committed with the given sha, in one batch, and
point the project's `lastCommit` at that sha. -/
def markChangesAsCommitted (st : PMState) (projectName commitSha : String) :
    Except String PMState :=
  match List.lookup projectName st.projects with
  | none => .error ("Project " ++ projectName ++ " not found")
  | some project =>
    .ok { st with projects :=
        (projectName,
          { project with
            changes := project.changes.map (markChange commitSha),
            lastCommit := some commitSha }) :: st.projects }

end ProjectManager

/-- The `clear_committed_changes` tool handler (src/index.ts lines 498-513):
it does NOT call `markChangesAsCommitted`; it maps `{...change, committed:
true, commitSha}` over ALL changes of the project - including the already
committed ones - and stores the result through `updateProject` (whose spread
with a full project collapses to re-storing the mutated project).  The
project's `lastCommit` is not touched on this path. -/
def handleClearCommittedChanges (st : PMState) (projectName commitSha : String) :
    Except String PMState :=
  match List.lookup projectName st.projects with
  | none => .error ("Project " ++ projectName ++ " not found")
  | some project =>
    .ok { st with projects :=
        (projectName,
          { project with
            changes := project.changes.map
              (fun c => { c with committed := true, commitSha := some commitSha }) })
          :: st.projects }

/-! ## Staging-store lemmas and fixtures -/

/-- After `markChangesAsCommitted`'s map, no change is still pending. -/
lemma filter_map_markChange (sha : String) (l : List Change) :
    (l.map (ProjectManager.markChange sha)).filter (fun c => !c.committed) = [] := by
  induction l with
  | nil => rfl
  | cons c l ih =>
    by_cases hc : c.committed
    · simp [ProjectManager.markChange, hc, ih]
    · simp [ProjectManager.markChange, hc, ih]

/-- A change already committed before a `markChangesAsCommitted` sweep. -/
def chOld : Change :=
  { id := "ch1", timestamp := "t1", ctype := "feature", description := "old work",
    files := none, committed := true, commitSha := some "sha-old" }

/-- A pending (uncommitted) change. -/
def chPending : Change :=
  { id := "ch2", timestamp := "t2", ctype := "bugfix", description := "new work",
    files := some ["src/a.ts"], committed := false, commitSha := none }

/-- A project holding one already-committed change. -/
def projCommitted : Project :=
  { name := "p", lastCommit := some "sha-old", changes := [chOld] }

/-- A project holding one pending change. -/
def projPending : Project :=
  { name := "q", lastCommit := none, changes := [chPending] }

/-- Staging state with both fixture projects. -/
def stPM : PMState :=
  { projects := [("p", projCommitted), ("q", projPending)] }

/-- C2: `markChangesAsCommitted(p, sha)` (the spec's `clearCommittedChanges`)
turns every currently-uncommitted change of an existing project into a
committed one carrying `commitSha = sha`, in one batch, sets the project's
`lastCommit` to `sha`, and leaves `getPendingChanges` empty afterwards. -/
theorem markChangesAsCommitted_clears_pending (st : PMState) (p sha : String)
    (proj : Project) (hproj : List.lookup p st.projects = some proj)
    (_hpending : ∃ c ∈ proj.changes, c.committed = false) :
    ∃ st',
      ProjectManager.markChangesAsCommitted st p sha = .ok st' ∧
      List.lookup p st'.projects =
        some { proj with
               changes := proj.changes.map (ProjectManager.markChange sha),
               lastCommit := some sha } ∧
      (∀ c ∈ proj.changes, c.committed = false →
        { c with committed := true, commitSha := some sha } ∈
          proj.changes.map (ProjectManager.markChange sha)) ∧
      ProjectManager.getPendingChanges st' p = .ok [] := by
  refine ⟨{ st with projects :=
      (p, { proj with
            changes := proj.changes.map (ProjectManager.markChange sha),
            lastCommit := some sha }) :: st.projects }, ?_, ?_, ?_, ?_⟩
  · simp only [ProjectManager.markChangesAsCommitted, hproj]
  · simp [List.lookup]
  · intro c hc hcom
    refine List.mem_map.mpr ⟨c, hc, ?_⟩
    simp [ProjectManager.markChange, hcom]
  · simp [ProjectManager.getPendingChanges, List.lookup, filter_map_markChange]

/-- C2 witness: the theorem applied to the fixture project `q`, whose single
change is pending. -/
theorem markChangesAsCommitted_clears_pending_witness :
    ∃ st',
      ProjectManager.markChangesAsCommitted stPM "q" "sha-1" = .ok st' ∧
      List.lookup "q" st'.projects =
        some { projPending with
               changes := projPending.changes.map (ProjectManager.markChange "sha-1"),
               lastCommit := some "sha-1" } ∧
      (∀ c ∈ projPending.changes, c.committed = false →
        { c with committed := true, commitSha := some "sha-1" } ∈
          projPending.changes.map (ProjectManager.markChange "sha-1")) ∧
      ProjectManager.getPendingChanges st' "q" = .ok [] :=
  markChangesAsCommitted_clears_pending stPM "q" "sha-1" projPending (by decide)
    ⟨chPending, by decide, by decide⟩

/-- C9: `recordChange` on an existing project appends a change with
`committed = false`, and `getPendingChanges` afterwards is exactly the old
pending list (records with `committed = false`, in insertion order) extended by
the new record. -/
theorem recordChange_appends_pending (st : PMState) (p : String) (proj : Project)
    (input : ChangeInput) (newId newTimestamp : String)
    (hproj : List.lookup p st.projects = some proj) :
    ∃ c st',
      ProjectManager.recordChange st p input newId newTimestamp = .ok (c, st') ∧
      c.committed = false ∧
      List.lookup p st'.projects = some { proj with changes := proj.changes ++ [c] } ∧
      ProjectManager.getPendingChanges st' p =
        .ok (proj.changes.filter (fun x => !x.committed) ++ [c]) := by
  refine ⟨{ id := newId, timestamp := newTimestamp, ctype := input.ctype,
            description := input.description, files := input.files,
            committed := false, commitSha := none },
          { st with projects :=
              (p, { proj with changes := proj.changes ++
                [{ id := newId, timestamp := newTimestamp, ctype := input.ctype,
                   description := input.description, files := input.files,
                   committed := false, commitSha := none }] }) :: st.projects },
          ?_, rfl, ?_, ?_⟩
  · simp only [ProjectManager.recordChange, hproj]
  · simp [List.lookup]
  · simp [ProjectManager.getPendingChanges, List.lookup]

/-- C9 witness: the theorem applied to the fixture state at project `p`. -/
theorem recordChange_appends_pending_witness :
    ∃ c st',
      ProjectManager.recordChange stPM "p"
        { ctype := "feature", description := "x", files := none } "id9" "t9" =
        .ok (c, st') ∧
      c.committed = false ∧
      List.lookup "p" st'.projects =
        some { projCommitted with changes := projCommitted.changes ++ [c] } ∧
      ProjectManager.getPendingChanges st' "p" =
        .ok (projCommitted.changes.filter (fun x => !x.committed) ++ [c]) :=
  recordChange_appends_pending stPM "p" projCommitted
    { ctype := "feature", description := "x", files := none } "id9" "t9" (by decide)

/-- C7: the `clear_committed_changes` tool handler rewrites the `commitSha` of
a change that was ALREADY committed (here from `"sha-old"` to `"sha-new"`),
while `ProjectManager.markChangesAsCommitted` - the operation the spec
describes - leaves the same already-committed record untouched. -/
theorem handleClearCommittedChanges_rewrites_committed :
    (∃ st', handleClearCommittedChanges stPM "p" "sha-new" = .ok st' ∧
      (List.lookup "p" st'.projects).map
        (fun proj => proj.changes.map (fun c => (c.committed, c.commitSha))) =
        some [(true, some "sha-new")]) ∧
    projCommitted.changes.map (fun c => (c.committed, c.commitSha)) =
      [(true, some "sha-old")] ∧
    (∃ st2, ProjectManager.markChangesAsCommitted stPM "p" "sha-new" = .ok st2 ∧
      (List.lookup "p" st2.projects).map
        (fun proj => proj.changes.map (fun c => (c.committed, c.commitSha))) =
        some [(true, some "sha-old")]) :=
  ⟨⟨_, rfl, by decide⟩, by decide, ⟨_, rfl, by decide⟩⟩

/-! ## Remote fixtures

A small concrete history: root commit `c0` with tree `t0`, child commit `c1`
with tree `t1`, branch `main` at `c1`; plus a second child `c2` and a merge
commit `m` of `c1` and `c2` for the merge-revert scenario. -/

/-- Service configuration for the fixtures. -/
def cfg0 : GitHubConfig := { owner := "octo", defaultBranch := "main" }

/-- Entries of the initial tree. -/
def t0entries : List (String × String) := [("a.txt", blobSha "v0")]

/-- Sha of the initial tree. -/
def t0 : String := treeShaOf t0entries

/-- Entries of the second tree. -/
def t1entries : List (String × String) := [("a.txt", blobSha "v1")]

/-- Sha of the second tree. -/
def t1 : String := treeShaOf t1entries

/-- Sha of the root commit. -/
def c0sha : String := commitShaOf "init" t0 []

/-- Sha of the second commit. -/
def c1sha : String := commitShaOf "second" t1 [c0sha]

/-- Remote state: two commits, branch `main` at `c1sha`. -/
def st0 : RemoteState :=
  { trees := [(t0, t0entries), (t1, t1entries)],
    commits := [(c0sha, ⟨"init", t0, []⟩), (c1sha, ⟨"second", t1, [c0sha]⟩)],
    refs := [("heads/main", c1sha)] }

/-- Sha of a side-branch commit on top of `c0`. -/
def c2sha : String := commitShaOf "side" t1 [c0sha]

/-- Sha of the merge commit of `c1` and `c2`. -/
def mSha : String := commitShaOf "merge" t1 [c1sha, c2sha]

/-- Remote state whose `main` head is the two-parent merge commit `mSha`. -/
def stMerge : RemoteState :=
  { trees := [(t0, t0entries), (t1, t1entries)],
    commits := [(c0sha, ⟨"init", t0, []⟩), (c1sha, ⟨"second", t1, [c0sha]⟩),
                (c2sha, ⟨"side", t1, [c0sha]⟩), (mSha, ⟨"merge", t1, [c1sha, c2sha]⟩)],
    refs := [("heads/main", mSha)] }

set_option maxRecDepth 100000

/-- C1: `revertCommit` targeting `c1sha` (whose first parent is the root commit
`c0sha` with tree `t0`), with the branch head still at the target.  The commit
it creates records `c0sha` - the first parent's COMMIT sha - in its tree field,
which differs from `t0`, the first parent's tree sha; so the resulting tree
is neither the parent's tree nor the pre-target-commit tree the claim
promises. -/
theorem revertCommit_tree_is_parent_commit_sha :
    (∃ res st',
      CommitService.revertCommit github cfg0 st0 "repo" c1sha "revert second" none =
        (.ok res, st') ∧
      (List.lookup res.sha st'.commits).map (fun c => c.tree) = some c0sha) ∧
    (List.lookup c0sha st0.commits).map (fun c => c.tree) = some t0 ∧
    c0sha ≠ t0 ∧
    List.lookup "heads/main" st0.refs = some c1sha :=
  ⟨⟨_, _, rfl, by decide⟩, by decide, by decide, by decide⟩

/-- C5: `revertCommit` targeting the merge commit `mSha` (two parents) does not
fail fast: it returns success, stores a new commit, and advances the branch
ref to it. -/
theorem revertCommit_merge_commit_no_fail_fast :
    (List.lookup mSha stMerge.commits).map (fun c => c.parents.length) = some 2 ∧
    (∃ res st',
      CommitService.revertCommit github cfg0 stMerge "repo" mSha "revert merge" none =
        (.ok res, st') ∧
      List.lookup res.sha st'.commits ≠ none ∧
      List.lookup "heads/main" st'.refs = some res.sha ∧
      res.sha ≠ mSha) :=
  ⟨by decide, ⟨_, _, rfl, by decide, by decide, by decide⟩⟩

/-- C8: deleting the repository's default branch fails with the domain error
`Cannot delete default branch` before any Gateway call - for EVERY gateway and
every remote state (hence regardless of the branch's existence or protection),
and the remote state is returned unchanged.  The two inequations keep the
identifier validators (which fire on the empty string and raise their own
typed errors first) out of the way. -/
theorem deleteBranch_default_branch_rejected (gw : Gateway) (cfg : GitHubConfig)
    (st : RemoteState) (repo branch : String)
    (hrepo : repo ≠ "") (hbranch : branch ≠ "")
    (hdef : branch = cfg.defaultBranch) :
    BranchService.deleteBranch gw cfg st repo branch =
      (.error (.plain "Cannot delete default branch"), st) := by
  subst hdef
  simp [BranchService.deleteBranch, hrepo, hbranch]

/-- C8 witness: deleting `main` - the fixture default branch - on the fixture
state. -/
theorem deleteBranch_default_branch_rejected_witness :
    ("repo" : String) ≠ "" ∧ ("main" : String) ≠ "" ∧
    BranchService.deleteBranch github cfg0 st0 "repo" "main" =
      (.error (.plain "Cannot delete default branch"), st0) :=
  ⟨by decide, by decide,
    deleteBranch_default_branch_rejected github cfg0 st0 "repo" "main"
      (by decide) (by decide) rfl⟩

/-- C4: `mergeBranches` returns `merged := true, conflicted := false` when the
remote merge succeeds; returns `merged := false, conflicted := true` - without
throwing - when the remote signals 409; and surfaces every other remote
failure as a typed error produced by `handleApiError`. -/
theorem mergeBranches_conflict_handling (cfg : GitHubConfig) (repo : String)
    (options : MergeBranchOptions) (remote : Except ApiFailure MergeData)
    (hrepo : repo ≠ "") (hhead : options.head ≠ "") (hbase : options.base ≠ "") :
    (∀ d, remote = .ok d →
      BranchService.mergeBranches cfg repo options remote =
        .ok { merged := true, sha := d.sha, message := d.message,
              conflicted := false,
              url := "https://github.com/" ++ cfg.owner ++ "/" ++ repo
                ++ "/commit/" ++ d.sha }) ∧
    (∀ f, remote = .error f → f.status = 409 →
      BranchService.mergeBranches cfg repo options remote =
        .ok { merged := false, message := "Merge conflict", conflicted := true,
              sha := "",
              url := "https://github.com/" ++ cfg.owner ++ "/" ++ repo
                ++ "/compare/" ++ options.base ++ "..." ++ options.head }) ∧
    (∀ f, remote = .error f → f.status ≠ 409 →
      BranchService.mergeBranches cfg repo options remote =
        .error (handleApiError f.toThrown
          ("merging " ++ options.head ++ " into " ++ options.base ++ " in "
            ++ cfg.owner ++ "/" ++ repo))) := by
  refine ⟨?_, ?_, ?_⟩
  · intro d hd
    subst hd
    simp [BranchService.mergeBranches, hrepo, hhead, hbase]
  · intro f hf h409
    subst hf
    simp [BranchService.mergeBranches, hrepo, hhead, hbase, h409]
  · intro f hf h409
    subst hf
    simp [BranchService.mergeBranches, hrepo, hhead, hbase, h409]

/-- C4 witness: the theorem applied to a concrete 409 outcome. -/
theorem mergeBranches_conflict_handling_witness :
    (∀ d, (Except.error ⟨409, "Merge Conflict"⟩ : Except ApiFailure MergeData) = .ok d →
      BranchService.mergeBranches cfg0 "repo"
        { head := "feature", base := "main", message := some "merge it" }
        (.error ⟨409, "Merge Conflict"⟩) =
        .ok { merged := true, sha := d.sha, message := d.message,
              conflicted := false,
              url := "https://github.com/" ++ cfg0.owner ++ "/" ++ "repo"
                ++ "/commit/" ++ d.sha }) ∧
    (∀ f, (Except.error ⟨409, "Merge Conflict"⟩ : Except ApiFailure MergeData) = .error f →
      f.status = 409 →
      BranchService.mergeBranches cfg0 "repo"
        { head := "feature", base := "main", message := some "merge it" }
        (.error ⟨409, "Merge Conflict"⟩) =
        .ok { merged := false, message := "Merge conflict", conflicted := true,
              sha := "",
              url := "https://github.com/" ++ cfg0.owner ++ "/" ++ "repo"
                ++ "/compare/" ++ "main" ++ "..." ++ "feature" }) ∧
    (∀ f, (Except.error ⟨409, "Merge Conflict"⟩ : Except ApiFailure MergeData) = .error f →
      f.status ≠ 409 →
      BranchService.mergeBranches cfg0 "repo"
        { head := "feature", base := "main", message := some "merge it" }
        (.error ⟨409, "Merge Conflict"⟩) =
        .error (handleApiError (ApiFailure.toThrown f)
          ("merging " ++ "feature" ++ " into " ++ "main" ++ " in "
            ++ cfg0.owner ++ "/" ++ "repo"))) :=
  mergeBranches_conflict_handling cfg0 "repo"
    { head := "feature", base := "main", message := some "merge it" }
    (.error ⟨409, "Merge Conflict"⟩) (by decide) (by decide) (by decide)

/-! ## Commit-builder lemmas -/

/-- A successful `getTree` hands back a tree actually stored under the
returned sha. -/
lemma gwGetTree_ok (st : RemoteState) (sha tsha : String)
    (entries : List (String × String))
    (h : gwGetTree st sha = .ok (tsha, entries)) :
    List.lookup tsha st.trees = some entries := by
  unfold gwGetTree at h
  cases hcl : List.lookup sha st.commits with
  | some c =>
    simp only [hcl] at h
    cases hct : List.lookup c.tree st.trees with
    | some es =>
      simp only [hct, Except.ok.injEq, Prod.mk.injEq] at h
      obtain ⟨h1, h2⟩ := h
      rw [← h1, ← h2]
      exact hct
    | none => simp [hct] at h
  | none =>
    simp only [hcl] at h
    cases hct : List.lookup sha st.trees with
    | some es =>
      simp only [hct, Except.ok.injEq, Prod.mk.injEq] at h
      obtain ⟨h1, h2⟩ := h
      rw [← h1, ← h2]
      exact hct
    | none => simp [hct] at h

/-- A successful `updateRef` is exactly the fast-forward that prepends the new
ref binding. -/
lemma gwUpdateRef_ok (st : RemoteState) (refStr sha : String) (st' : RemoteState)
    (h : gwUpdateRef st refStr sha = .ok st') :
    st' = { st with refs := (refStr, sha) :: st.refs } := by
  unfold gwUpdateRef at h
  cases hcl : List.lookup refStr st.refs with
  | some cur =>
    simp only [hcl] at h
    by_cases hff : isFastForward st cur sha = true
    · rw [if_pos hff] at h
      exact (Except.ok.inj h).symm
    · rw [if_neg hff] at h
      exact absurd h (by simp)
  | none =>
    simp only [hcl] at h
    exact absurd h (by simp)

/-- The `Promise.all` batch rejects whenever some non-delete change carries no
`sourcePath`. -/
lemma buildFileOps_error_of_missing_sourcePath (fsys : String → Option String)
    (changes : List GitFileChange) (c : GitFileChange) (hc : c ∈ changes)
    (hop : c.operation ≠ "delete") (hsp : c.sourcePath = none) :
    ∃ t, CommitService.buildFileOps fsys changes = .error t := by
  induction changes with
  | nil => cases hc
  | cons d ds ih =>
    rcases List.mem_cons.mp hc with h | h
    · subst h
      have hb : CommitService.buildFileOp fsys c =
          .error (.js none ("Source path required for " ++ c.operation ++ " operation")) := by
        simp [CommitService.buildFileOp, hop, hsp]
      exact ⟨.js none ("Source path required for " ++ c.operation ++ " operation"),
        by simp [CommitService.buildFileOps, hb]⟩
    · cases hbd : CommitService.buildFileOp fsys d with
      | error t2 => exact ⟨t2, by simp [CommitService.buildFileOps, hbd]⟩
      | ok op =>
        obtain ⟨t, ht⟩ := ih h
        exact ⟨t, by simp [CommitService.buildFileOps, hbd, ht]⟩

/-- C10: a `createCommit` call in which some change has operation `add` or
`modify` (anything but `delete`) and no `sourcePath` returns an error and
leaves the remote state - trees, commits and the branch ref - exactly as it
was, for every gateway. -/
theorem createCommit_missing_sourcePath_errors (gw : Gateway)
    (cfg : GitHubConfig) (fsys : String → Option String) (repo : String)
    (changes : List GitFileChange) (options : CommitOptions) (st : RemoteState)
    (hbad : ∃ c ∈ changes, c.operation ≠ "delete" ∧ c.sourcePath = none) :
    ∃ e, CommitService.createCommit gw cfg fsys repo changes options st =
      (.error e, st) := by
  obtain ⟨c, hc, hop, hsp⟩ := hbad
  obtain ⟨t, ht⟩ := buildFileOps_error_of_missing_sourcePath fsys changes c hc hop hsp
  cases href : gw.getRef st ("heads/" ++ options.branch.getD cfg.defaultBranch) with
  | error f =>
    exact ⟨handleApiError f.toThrown ("creating commit in " ++ repo),
      by simp [CommitService.createCommit, href]⟩
  | ok head =>
    exact ⟨handleApiError t ("creating commit in " ++ repo),
      by simp [CommitService.createCommit, href, ht]⟩

/-- A change with a missing source path. -/
def badChange : GitFileChange :=
  { path := "src/x.ts", operation := "add", sourcePath := none }

/-- An empty local filesystem. -/
def fsysEmpty : String → Option String := fun _ => none

/-- Commit options targeting the default branch. -/
def opts0 : CommitOptions := { message := "msg", branch := none, author := none }

/-- C10 witness: the theorem applied to the fixture state and a single
sourcePath-less `add` change. -/
theorem createCommit_missing_sourcePath_errors_witness :
    ∃ e, CommitService.createCommit github cfg0 fsysEmpty "repo" [badChange]
      opts0 st0 = (.error e, st0) :=
  createCommit_missing_sourcePath_errors github cfg0 fsysEmpty "repo"
    [badChange] opts0 st0 ⟨badChange, by decide, by decide, by decide⟩

/-- Anatomy of a successful `createCommit` run over the standard gateway: the
branch head resolved, the change batch built, the base tree was fetched, the
new tree is the overlay of the batch on the base entries, the stored commit
carries that tree and the single parent `head`, and the branch ref now names
the new commit. -/
lemma createCommit_ok_anatomy (cfg : GitHubConfig) (fsys : String → Option String)
    (repo : String) (changes : List GitFileChange) (options : CommitOptions)
    (st : RemoteState) (res : CommitResult) (st' : RemoteState)
    (hrun : CommitService.createCommit github cfg fsys repo changes options st =
      (.ok res, st')) :
    ∃ head ops btsha bentries,
      gwGetRef st ("heads/" ++ options.branch.getD cfg.defaultBranch) = .ok head ∧
      CommitService.buildFileOps fsys changes = .ok ops ∧
      gwGetTree st head = .ok (btsha, bentries) ∧
      res.sha = commitShaOf options.message (treeShaOf (applyTreeOps bentries ops)) [head] ∧
      List.lookup res.sha st'.commits =
        some ⟨options.message, treeShaOf (applyTreeOps bentries ops), [head]⟩ ∧
      List.lookup ("heads/" ++ options.branch.getD cfg.defaultBranch) st'.refs =
        some res.sha := by
  unfold CommitService.createCommit at hrun
  simp only [github] at hrun
  cases h1 : gwGetRef st ("heads/" ++ options.branch.getD cfg.defaultBranch) with
  | error f => simp [h1] at hrun
  | ok head =>
    simp only [h1] at hrun
    cases h2 : CommitService.buildFileOps fsys changes with
    | error t => simp [h2] at hrun
    | ok ops =>
      simp only [h2] at hrun
      cases h3 : gwGetTree st head with
      | error f => simp [h3] at hrun
      | ok pr =>
        obtain ⟨btsha, bentries⟩ := pr
        simp only [h3] at hrun
        have hlk : List.lookup btsha st.trees = some bentries :=
          gwGetTree_ok st head btsha bentries h3
        unfold gwCreateTree at hrun
        simp only [hlk] at hrun
        unfold gwCreateCommit at hrun
        simp only [] at hrun
        split at hrun
        · simp at hrun
        · rename_i st3 h5
          have hst3 := gwUpdateRef_ok _ _ _ _ h5
          simp only [Prod.mk.injEq, Except.ok.injEq] at hrun
          obtain ⟨hres, hst⟩ := hrun
          subst hres
          subst hst
          subst hst3
          refine ⟨head, ops, btsha, bentries, rfl, rfl, h3, rfl, ?_, ?_⟩
          · simp [List.lookup]
          · simp [List.lookup]

/-- A gateway inside which a concurrent writer wins the race: just before our
`updateRef` lands, the ref has already been advanced to `winner` (the racing
commit).  Every other operation behaves exactly like `github`.  This realises
the spec's two-racing-writers scenario sequentially. -/
def raceGateway (winner : String) : Gateway :=
  { github with
    updateRef := fun st refStr sha =>
      gwUpdateRef { st with refs := (refStr, winner) :: st.refs } refStr sha }

/-- The racing writer's commit: a second child of `c1sha` that our new commit
does not descend from. -/
def raceWinnerSha : String := commitShaOf "racer" t1 [c1sha]

/-- A change whose source file exists locally. -/
def goodChange : GitFileChange :=
  { path := "a.txt", operation := "modify", sourcePath := some "/local/a.txt" }

/-- Filesystem carrying the source file of `goodChange`. -/
def fsysGood : String → Option String :=
  fun p => if p == "/local/a.txt" then some "v2" else none

/-- The successful fixture `createCommit` run with one modified file. -/
def ccPair : Except GHError CommitResult × RemoteState :=
  CommitService.createCommit github cfg0 fsysGood "repo" [goodChange] opts0 st0

/-- The commit result of the fixture run. -/
def ccRes : CommitResult :=
  ccPair.1.toOption.getD { sha := "", url := "", files := [] }

/-- C3: (first conjunct) every successful `createCommit` over the standard
gateway stores a commit whose parents list is exactly the single head sha the
branch resolved to at the start of the call, and leaves the branch ref at the
new commit's sha.  (second conjunct) When a racing writer has moved the ref
since step 1, the fast-forward-only `updateRef` is rejected and the call
surfaces the typed conflict (`GitHubError('API_ERROR', 422)` wrapped with the
operation context) without retrying: afterwards the builder has not moved the
branch ref, which still answers the old head from its own state. -/
theorem createCommit_parents_and_fast_forward :
    (∀ (cfg : GitHubConfig) (fsys : String → Option String) (repo : String)
       (changes : List GitFileChange) (options : CommitOptions)
       (st : RemoteState) (res : CommitResult) (st' : RemoteState) (head : String),
      github.getRef st ("heads/" ++ options.branch.getD cfg.defaultBranch) = .ok head →
      CommitService.createCommit github cfg fsys repo changes options st = (.ok res, st') →
      (List.lookup res.sha st'.commits).map (fun c => c.parents) = some [head] ∧
      List.lookup ("heads/" ++ options.branch.getD cfg.defaultBranch) st'.refs =
        some res.sha) ∧
    ((CommitService.createCommit (raceGateway raceWinnerSha) cfg0 fsysEmpty
        "repo" [] opts0 st0).1 =
      .error (.api ("creating commit in " ++ "repo") (some 422)) ∧
     List.lookup "heads/main"
       (CommitService.createCommit (raceGateway raceWinnerSha) cfg0 fsysEmpty
         "repo" [] opts0 st0).2.refs = some c1sha) := by
  constructor
  · intro cfg fsys repo changes options st res st' head hhead hrun
    obtain ⟨head', ops, btsha, bentries, h1, h2, h3, hsha, hcommit, href⟩ :=
      createCommit_ok_anatomy cfg fsys repo changes options st res st' hrun
    have hh : head' = head := Except.ok.inj (h1.symm.trans hhead)
    subst hh
    exact ⟨by simp [hcommit], href⟩
  · exact ⟨rfl, rfl⟩

/-- C3 witness: the first conjunct applied to the concrete successful fixture
run (one modified file on `main`). -/
theorem createCommit_parents_and_fast_forward_witness :
    (List.lookup ccRes.sha ccPair.2.commits).map (fun c => c.parents) =
      some [c1sha] ∧
    List.lookup ("heads/" ++ opts0.branch.getD cfg0.defaultBranch) ccPair.2.refs =
      some ccRes.sha :=
  createCommit_parents_and_fast_forward.1 cfg0 fsysGood "repo" [goodChange]
    opts0 st0 ccRes ccPair.2 c1sha rfl rfl

/-- C6: a `createCommit` call with an empty changes list creates a commit
whose tree sha equals the base tree sha resolved from the branch head at the
start of the call - overlaying zero entries leaves the base tree, and the
content-addressed sha of an unchanged tree is unchanged. -/
theorem createCommit_empty_changes_noop_tree (cfg : GitHubConfig)
    (fsys : String → Option String) (repo : String) (options : CommitOptions)
    (st : RemoteState) (res : CommitResult) (st' : RemoteState)
    (head btsha : String) (bentries : List (String × String))
    (hhead : github.getRef st ("heads/" ++ options.branch.getD cfg.defaultBranch) = .ok head)
    (htree : github.getTree st head = .ok (btsha, bentries))
    (hca : btsha = treeShaOf bentries)
    (hrun : CommitService.createCommit github cfg fsys repo [] options st =
      (.ok res, st')) :
    (List.lookup res.sha st'.commits).map (fun c => c.tree) = some btsha := by
  obtain ⟨head', ops, btsha', bentries', h1, h2, h3, hsha, hcommit, href⟩ :=
    createCommit_ok_anatomy cfg fsys repo [] options st res st' hrun
  have hh : head' = head := Except.ok.inj (h1.symm.trans hhead)
  subst hh
  have hpr := Except.ok.inj (h3.symm.trans htree)
  have hb1 : btsha' = btsha := congrArg Prod.fst hpr
  have hb2 : bentries' = bentries := congrArg Prod.snd hpr
  have hops : ops = [] :=
    Except.ok.inj (h2.symm.trans (rfl : CommitService.buildFileOps fsys [] = .ok []))
  subst hops
  rw [hcommit]
  rw [show applyTreeOps bentries' [] = bentries' from rfl]
  rw [hb2, ← hca]
  rfl

/-- The fixture no-op commit run (empty change list on `main`). -/
def ccEmptyPair : Except GHError CommitResult × RemoteState :=
  CommitService.createCommit github cfg0 fsysEmpty "repo" [] opts0 st0

/-- The commit result of the no-op fixture run. -/
def ccEmptyRes : CommitResult :=
  ccEmptyPair.1.toOption.getD { sha := "", url := "", files := [] }

/-- C6 witness: the theorem applied to the concrete empty-changes run; the
created commit's tree sha is `t1`, the base tree sha at the head `c1sha`. -/
theorem createCommit_empty_changes_noop_tree_witness :
    (List.lookup ccEmptyRes.sha ccEmptyPair.2.commits).map (fun c => c.tree) =
      some t1 :=
  createCommit_empty_changes_noop_tree cfg0 fsysEmpty "repo" opts0 st0
    ccEmptyRes ccEmptyPair.2 c1sha t1 t1entries rfl rfl rfl rfl

end ProjectHub
